import Mathlib

/-!
Verification of the term_agent control-loop specification against a shallow
embedding of the repository's Python source.

Conventions used throughout:
* Python strings are Lean `String`s; Python `str.lower`, `str.strip`,
  substring tests (`in`), `str.split` and `str.endswith` are embedded by the
  `py*` helpers below with Python's semantics (ASCII data only is exercised).
* Stateful Python methods become explicit state-passing functions over a
  structure that mirrors the instance attributes the methods touch.
* Calls into external collaborators (the LLM transport, `json.loads` on
  arbitrary text) are parametrised by an oracle argument describing the
  collaborator's reply; everything after the call site is translated from
  the source.
* A Python statement that raises is embedded through `Except PyError`.
-/

namespace TermAgent

/-- Python exception kinds that occur in the embedded code paths. -/
inductive PyError where
  | typeError (msg : String)
  | attributeError (msg : String)
deriving DecidableEq, Repr

/-- Whitespace as recognised by Python's `str.strip` / `str.split` (ASCII range). -/
def pyIsSpace (c : Char) : Bool :=
  c = ' ' || c = '\t' || c = '\n' || c = '\r' || c = '\x0b' || c = '\x0c'

/-- Python `str.lower` (ASCII). -/
def pyLower (s : String) : String :=
  String.mk (s.data.map Char.toLower)

/-- Python `str.strip`: drop leading and trailing whitespace. -/
def pyStrip (s : String) : String :=
  String.mk (((s.data.dropWhile pyIsSpace).reverse.dropWhile pyIsSpace).reverse)

/-- Substring search on character lists (contiguous occurrence). -/
def charInfixOf (needle : List Char) : List Char → Bool
  | [] => needle.isEmpty
  | c :: rest => needle.isPrefixOf (c :: rest) || charInfixOf needle rest

/-- Python `needle in hay` substring test. -/
def pyContains (hay needle : String) : Bool :=
  charInfixOf needle.data hay.data

/-- Worker for `pySplitWs`: walk the characters, collecting the current
word in (reversed) `acc`. -/
def pySplitWsAux : List Char → List Char → List (List Char)
  | [], acc => if acc.isEmpty then [] else [acc.reverse]
  | c :: rest, acc =>
    if pyIsSpace c then
      if acc.isEmpty then pySplitWsAux rest []
      else acc.reverse :: pySplitWsAux rest []
    else pySplitWsAux rest (c :: acc)

/-- Python `s.split()` (no separator): split on whitespace runs, dropping
empties. -/
def pySplitWs (s : String) : List String :=
  (pySplitWsAux s.data []).map String.mk

/-- Worker for `pySplitOn`: fuel-indexed scan (the fuel — initially the
string length — only serves structural termination; a non-empty separator
consumes at least one character per step, so it never runs out first). -/
def pySplitOnAux (sep : List Char) : Nat → List Char → List Char → List (List Char)
  | _, [], acc => [acc.reverse]
  | 0, l, acc => [acc.reverse ++ l]
  | fuel + 1, c :: rest, acc =>
    if sep.isPrefixOf (c :: rest) then
      acc.reverse :: pySplitOnAux sep fuel (List.drop sep.length (c :: rest)) []
    else
      pySplitOnAux sep fuel rest (c :: acc)

/-- Python `s.split(sep)` for a non-empty separator: non-overlapping
left-to-right splits, keeping empty segments. -/
def pySplitOn (s sep : String) : List String :=
  (pySplitOnAux sep.data s.data.length s.data []).map String.mk

/-- Python `s.endswith(t)`. -/
def pyEndsWith (s t : String) : Bool :=
  t.data.reverse.isPrefixOf s.data.reverse

/-- Python `l[-k:]` for a non-negative `k`: the last `k` elements, except that
`k = 0` yields the whole list (Python's `-0` is `0`). -/
def pyTakeLast {α : Type} (k : Nat) (l : List α) : List α :=
  if k = 0 then l else l.drop (l.length - k)

/-- Python `l[a:b]` for non-negative bounds. -/
def pySlice {α : Type} (a b : Nat) (l : List α) : List α :=
  (l.take b).drop a

/-! ## SecurityValidator (src/security/SecurityValidator.py)

`SecurityValidator.__init__` stores a denylist of dangerous command patterns
and a list of allowed paths; `validate_command` reads the denylist and
mutates nothing. -/

/-- The default denylist from `SecurityValidator.__init__`
(`self.dangerous_commands`), in source order. -/
def defaultDangerousCommands : List String :=
  [ "rm -rf /", "rm -rf /*", "rm -rf /home", "rm -rf /etc", "rm -rf /var",
    "rm -rf /usr", "rm -rf /boot", "rm -rf /root",
    "dd if=/dev/", "mkfs.", "fdisk /dev/", "wipefs", "shred /dev/",
    "passwd root", "usermod -p ", "chpasswd",
    "sudo su", "su root", "sudo -i", "sudo -s",
    "crontab -r", "history -c", "unset HISTFILE",
    "chmod u+s", "chmod g+s", "chmod 4", "chmod 2",
    "iptables -F", "iptables -X", "ufw --force disable",
    "reboot", "shutdown", "halt", "poweroff",
    "umount /", "umount -a",
    "find / -delete", "find / -exec rm" ]

/-- The default allowed paths from `SecurityValidator.__init__`. -/
def defaultAllowedPaths : List String :=
  ["/tmp", "/var/tmp", "/home", "/usr/local", "/opt"]

/-- The shell-injection metacharacters checked by `validate_command`. -/
def injectionPatterns : List String :=
  [";", "`", "$(", "$\x7b"]

/-- The interactive command names checked by `validate_command`. -/
def interactiveCmds : List String :=
  ["vi", "vim", "nano", "emacs", "less", "more", "top", "htop", "mc",
   "passwd", "su", "sudo -i", "sudo -s"]

/-- The mutable attributes of a `SecurityValidator` instance. -/
structure SecurityValidatorState where
  dangerous_commands : List String
  allowed_paths : List String
deriving DecidableEq, Repr

/-- A `SecurityValidator()` built with the default arguments. -/
def securityValidatorDefault : SecurityValidatorState :=
  { dangerous_commands := defaultDangerousCommands
    allowed_paths := defaultAllowedPaths }

/-- Helper for the `&&` / `||` handling in `validate_command`: Python
`command.split(op)` followed by the per-part check.  Returns `some reason`
when some part fails. -/
def checkChainParts (command : String) (op : String) (malformedMsg : String)
    (suspiciousMsg : String → String) : Option String :=
  if pyContains command op then
    let parts := pySplitOn command op
    let rec go : List String → Option String
      | [] => none
      | p :: rest =>
        let p := pyStrip p
        if p = "" then some malformedMsg
        else if (["$(", "$\x7b", "`", ";"].any fun s => pyContains p s) then
          some (suspiciousMsg p)
        else go rest
    go parts
  else none

/-- `SecurityValidator.validate_command`, as a function of the stored
denylist (the only instance attribute the method reads) and the command.
The `isinstance` check is subsumed by typing. -/
def validate_command_with (dangerous_commands : List String) (command : String) :
    Bool × String :=
  -- if not command: return False, "Command must be a non-empty string"
  if command = "" then (false, "Command must be a non-empty string")
  else
    -- cmd_lower = command.lower().strip()
    let cmd_lower := pyStrip (pyLower command)
    match dangerous_commands.find? (fun d => pyContains cmd_lower d) with
    | some dangerous =>
      (false, "Command contains dangerous pattern: '" ++ dangerous ++ "'")
    | none =>
      match injectionPatterns.find? (fun p => pyContains command p) with
      | some pat =>
        (false, "Command contains potential shell injection: '" ++ pat ++ "'")
      | none =>
        match checkChainParts command "&&" "Command contains malformed '&&' usage"
            (fun p => "Command contains suspicious pattern near '&&': '" ++ p ++ "'") with
        | some reason => (false, reason)
        | none =>
          match checkChainParts command "||" "Command contains malformed '||' usage"
              (fun p => "Command contains suspicious pattern near '||': '" ++ p ++ "'") with
          | some reason => (false, reason)
          | none =>
            let cmd_parts := pySplitWs command
            match cmd_parts.head? with
            | some first =>
              if interactiveCmds.any (fun i => pyEndsWith first i) then
                (false, "Interactive command not allowed: '" ++ first ++ "'")
              else (true, "")
            | none => (true, "")

/-- The method call `validator.validate_command(command)`: it reads
`self.dangerous_commands`, performs no assignment to `self`, and returns the
`(ok, reason)` pair; the instance state after the call is returned alongside
to make the absence of mutation a provable statement. -/
def SecurityValidator.validate_command (v : SecurityValidatorState)
    (command : String) : (Bool × String) × SecurityValidatorState :=
  (validate_command_with v.dangerous_commands command, v)

/-- `validate_command` on the default validator (used by the runner, which
constructs `SecurityValidator()` with no arguments). -/
def validate_command (command : String) : Bool × String :=
  validate_command_with defaultDangerousCommands command

/-! ## ContextManager (src/context/ContextManager.py)

The conversation store: an append-only turn list, a sliding-window view,
and the rolling-summary machinery.  `Message` is one Python context dict
`{"role": ..., "content": ...}`. -/

/-- One conversation turn (`{"role": role, "content": content}`). -/
structure Message where
  role : String
  content : String
deriving DecidableEq, Repr

/-- The instance attributes of `ContextManager` that the embedded methods
read or write.  `_summary_metrics` is inlined as the four counters the code
maintains; the `frequent_truncation_alerts` counter and
`_last_truncation_warning` timestamp depend on the wall clock and feed only
log lines, so they are not modelled.  `request_history` and the logger play
no role in the claims under verification. -/
structure CMState where
  window_size : Nat
  summary_char_limit : Nat
  rolling_summary : Option String
  summary_upto_index : Nat
  initial_summaries : Nat
  update_summaries : Nat
  total_messages_summarized : Nat
  truncation_count : Nat
  context : List Message
deriving DecidableEq, Repr

/-- `ContextManager.__init__` followed by `_initialize_context`: empty
context, no rolling summary, `_summary_upto_index = 2`, zeroed metrics. -/
def cm_init (window_size : Nat) (summary_char_limit : Nat) : CMState :=
  { window_size := window_size
    summary_char_limit := summary_char_limit
    rolling_summary := none
    summary_upto_index := 2
    initial_summaries := 0
    update_summaries := 0
    total_messages_summarized := 0
    truncation_count := 0
    context := [] }

/-- `ContextManager.add_message`: append the turn, then
`_clear_rolling_summary` (sets `_rolling_summary = None` and
`_summary_upto_index = 2`). -/
def add_message (s : CMState) (role content : String) : CMState :=
  { s with
    context := s.context ++ [⟨role, content⟩]
    rolling_summary := none
    summary_upto_index := 2 }

/-- `add_assistant_message`. -/
def add_assistant_message (s : CMState) (content : String) : CMState :=
  add_message s "assistant" content

/-- `add_user_message`. -/
def add_user_message (s : CMState) (content : String) : CMState :=
  add_message s "user" content

/-- `add_system_message`. -/
def add_system_message (s : CMState) (content : String) : CMState :=
  add_message s "system" content

/-- Python word characters, as matched by `\w` in the fence-stripping regex. -/
def pyIsWordChar (c : Char) : Bool :=
  (c ≥ 'a' && c ≤ 'z') || (c ≥ 'A' && c ≤ 'Z') || (c ≥ '0' && c ≤ '9') || c = '_'

/-- `dropWhile` never lengthens a list (termination helper). -/
theorem dropWhile_length_le {α : Type} (p : α → Bool) (l : List α) :
    (l.dropWhile p).length ≤ l.length := by
  induction l with
  | nil => simp [List.dropWhile]
  | cons a l ih =>
    by_cases h : p a
    · simp only [List.dropWhile, h]
      exact Nat.le_succ_of_le ih
    · simp [List.dropWhile, h]

/-- The cleanup applied to an AI summarizer reply in `_summarize`:
`re.sub(r'```\w*', '', reply).replace('```', '')` — every triple backtick
together with the word characters glued to it is removed (the later
`.replace` finds nothing, since the regex already consumed every fence). -/
def stripFences : List Char → List Char
  | '`' :: '`' :: '`' :: rest => stripFences (rest.dropWhile pyIsWordChar)
  | c :: rest => c :: stripFences rest
  | [] => []
termination_by l => l.length
decreasing_by
  · simpa using Nat.lt_succ_of_le
      (Nat.le_succ_of_le (Nat.le_succ_of_le (dropWhile_length_le _ _)))
  · simp

/-- The first line of a Python string (`text.splitlines()[0]`); the heuristic
only evaluates it on non-empty `text`, where it is the prefix before the
first line break. -/
def pyFirstLine (s : String) : String :=
  String.mk (s.data.takeWhile (fun c => !(c = '\n' || c = '\r')))

/-- Keyword buckets of the heuristic fallback in `_summarize`. -/
def completedKeywords : List String :=
  ["done", "completed", "finished", "succeeded", "created"]

def decisionKeywords : List String :=
  ["decide", "decision", "choose", "will", "should"]

def pendingKeywords : List String :=
  ["todo", "pending", "next", "remaining", "open"]

/-- The bucketing loop of the heuristic fallback: each message's stripped
content joins the first bucket whose keyword list matches its lowercase form
(`if` / `elif` / `elif`), contributing its first line. -/
def bucketMessages : List Message → List String × List String × List String
  | [] => ([], [], [])
  | m :: rest =>
    let (cs, ds, ps) := bucketMessages rest
    let text := pyStrip m.content
    let lower := pyLower text
    if completedKeywords.any (fun k => pyContains lower k) then
      (pyFirstLine text :: cs, ds, ps)
    else if decisionKeywords.any (fun k => pyContains lower k) then
      (cs, pyFirstLine text :: ds, ps)
    else if pendingKeywords.any (fun k => pyContains lower k) then
      (cs, ds, pyFirstLine text :: ps)
    else (cs, ds, ps)

/-- The deterministic heuristic summary built at the end of `_summarize`. -/
def heuristicSummary (messages : List Message) : String :=
  let (completed, decisions, pending) := bucketMessages messages
  let orDefault := fun (l : List String) =>
    if l.isEmpty then ["(none detected)"] else l
  let parts :=
    ["Completed:"] ++ (orDefault completed).map (fun c => "- " ++ c)
      ++ ["\nDecisions:"] ++ (orDefault decisions).map (fun d => "- " ++ d)
      ++ ["\nPending:"] ++ (orDefault pending).map (fun p => "- " ++ p)
  String.intercalate "\n" parts

/-- `ContextManager._summarize`.  The delegated model call
(`runner._get_ai_reply_with_retry`) is an external collaborator; its outcome
is the `aiReply` oracle: `none` when no runner is attached, the call raised,
or it returned `None`; `some r` when it returned the string `r`.  A truthy
reply is cleaned and returned; otherwise the heuristic fallback runs.
Total: `_summarize` itself never raises. -/
def summarize (aiReply : Option String) (messages : List Message) : String :=
  match aiReply with
  | some reply =>
    if reply ≠ "" then pyStrip (String.mk (stripFences reply.data))
    else heuristicSummary messages
  | none => heuristicSummary messages

/-- `ContextManager._summarize_initial`.  Its body evaluates
`self._summarize(messages, prompt=(...))`, but `_summarize` is defined as
`def _summarize(self, messages)` and accepts no `prompt` keyword, so the
call raises `TypeError` before any summary is produced or any metric is
updated.  The statements after the call (metric increments, logging,
`return summary`) are unreachable. -/
def summarize_initial (_messages : List Message) : Except PyError String :=
  .error (.typeError
    "_summarize() got an unexpected keyword argument \x27prompt\x27")

/-- `ContextManager._summarize_update`: same call shape as
`_summarize_initial` (`self._summarize(new_messages, prompt=(...))`), hence
the same `TypeError` before anything else happens. -/
def summarize_update (_existing_summary : String)
    (_new_messages : List Message) : Except PyError String :=
  .error (.typeError
    "_summarize() got an unexpected keyword argument \x27prompt\x27")

/-- Python `s[-n:]` on a string (used for the summary hard cap). -/
def pyTakeLastStr (n : Nat) (s : String) : String :=
  String.mk (pyTakeLast n s.data)

/-- `ContextManager._update_rolling_summary`.  The whole body sits in a
`try`; the `except Exception` arm only logs ("Don't destroy old memory if
update fails") and leaves the state as it was.  The success path — hard cap
to the trailing `summary_char_limit` characters with a truncation-counter
increment on overflow, then storing the summary — is translated below, but
is reachable only if `_summarize_update` / `_summarize_initial` return,
which they never do (see their doc comments). -/
def update_rolling_summary (s : CMState) (new_messages : List Message) :
    CMState :=
  let attempt : Except PyError CMState := do
    let summary ←
      match s.rolling_summary with
      | some existing => summarize_update existing new_messages
      | none => summarize_initial new_messages
    let (summary, s₁) :=
      if summary.length > s.summary_char_limit then
        (pyTakeLastStr s.summary_char_limit summary,
         { s with truncation_count := s.truncation_count + 1 })
      else (summary, s)
    pure { s₁ with rolling_summary := some summary }
  match attempt with
  | .ok s₂ => s₂
  | .error _ => s

/-- Truthiness of `self._rolling_summary` (`if self._rolling_summary:`):
present and non-empty. -/
def rollingSummaryTruthy : Option String → Bool
  | none => false
  | some r => r ≠ ""

/-- `ContextManager._inject_state`: when a (truthy) persistent state is
given, append one system turn carrying its serialized form.  Serialization
(`json.dumps`, with a `str` fallback) is external; the oracle `state` is the
serialized representation, or `none` when `state` is falsy. -/
def inject_state (working : List Message) (state : Option String) :
    List Message :=
  match state with
  | none => working
  | some state_repr =>
    working ++ [⟨"system", "[Persistent agent state]\n" ++ state_repr⟩]

/-- `ContextManager.get_sliding_window_context`, returning the message list
handed to the model together with the successor state (the method mutates
`_rolling_summary` / `_summary_upto_index` through
`_update_rolling_summary`). -/
def get_sliding_window_context (s : CMState) (state : Option String) :
    List Message × CMState :=
  let context_len := s.context.length
  let max_len := 2 + s.window_size
  -- Fast path for small contexts
  if context_len ≤ max_len then
    (inject_state s.context state, s)
  else
    let initial := s.context.take 2
    let recent := pyTakeLast s.window_size s.context
    let summary_end_index := context_len - s.window_size
    let new_messages := pySlice s.summary_upto_index summary_end_index s.context
    -- Update rolling summary if there are new messages
    let s₁ :=
      if new_messages.isEmpty then s
      else { update_rolling_summary s new_messages with
              summary_upto_index := summary_end_index }
    let working := initial
    -- Add summary if available
    let working :=
      match s₁.rolling_summary with
      | some rs =>
        if rs ≠ "" then
          working ++ [⟨"assistant", "[Conversation memory]\n" ++ rs⟩]
        else working
      | none => working
    -- Add recent messages, then state
    (inject_state (working ++ recent) state, s₁)

/-- The states a `ContextManager` can reach from `s₀` through the operations
the conversation exercises: appending turns and requesting sliding windows.
-/
inductive CMReach (s₀ : CMState) : CMState → Prop
  | refl : CMReach s₀ s₀
  | add (role content : String) {s : CMState} :
      CMReach s₀ s → CMReach s₀ (add_message s role content)
  | window (state : Option String) {s : CMState} :
      CMReach s₀ s → CMReach s₀ (get_sliding_window_context s state).2

/-! ## ActionPlanManager (src/plan/ActionPlanManager.py) -/

/-- `StepStatus`. -/
inductive StepStatus where
  | pending
  | in_progress
  | completed
  | failed
  | skipped
deriving DecidableEq, Repr

/-- `PlanStep` (timestamps are opaque ISO strings produced by `datetime`). -/
structure PlanStep where
  number : Nat
  description : String
  command : Option String := none
  status : StepStatus := .pending
  result : Option String := none
  timestamp_start : Option String := none
  timestamp_end : Option String := none
  notes : Option String := none
deriving DecidableEq, Repr

/-- One entry of the `steps_data` list handed to `create_plan`
(`step_data.get('description', '')` / `step_data.get('command')`). -/
structure StepData where
  description : Option String := none
  command : Option String := none
deriving DecidableEq, Repr

/-- The step list built by `ActionPlanManager.create_plan`: 1-based
sequential numbers, `PENDING` status, descriptions defaulted to `""`.
(The method also stores the goal and `created_at`/`updated_at` timestamps on
the manager; the claims concern the step list.) -/
def create_plan (steps_data : List StepData) : List PlanStep :=
  (List.range steps_data.length).zip steps_data |>.map fun (idx, sd) =>
    { number := idx + 1
      description := sd.description.getD ""
      command := sd.command
      status := .pending }

/-- `get_progress`'s result dictionary.  `percentage` is computed in the
source as `int((completed / total) * 100)` through float division; no claim
depends on its rounding, and it is embedded as the integer quotient
`completed * 100 / total`. -/
structure Progress where
  total : Nat
  completed : Nat
  failed : Nat
  pending : Nat
  in_progress : Nat
  percentage : Nat
deriving DecidableEq, Repr

/-- `ActionPlanManager.get_progress`. -/
def get_progress (steps : List PlanStep) : Progress :=
  let total := steps.length
  if total = 0 then
    { total := 0, completed := 0, failed := 0, pending := 0,
      in_progress := 0, percentage := 0 }
  else
    let completed := steps.countP (fun s => s.status = .completed)
    let failed := steps.countP (fun s => s.status = .failed)
    let pending := steps.countP (fun s => s.status = .pending)
    let in_progress := steps.countP (fun s => s.status = .in_progress)
    { total := total, completed := completed, failed := failed,
      pending := pending, in_progress := in_progress,
      percentage := completed * 100 / total }

/-! ## Plan initialization (VaultAiAgentRunner._initialize_plan) -/

/-- Outcome of the model interaction inside
`ActionPlanManager.create_plan_with_ai`: `noResponse` when
`ai_handler.send_request` returned a falsy reply; `parseError` when
`json.loads(response)` (or anything else inside the `try`) raised — the
`except` arm returns `[]`; `parsed steps` when the reply parsed and
`data.get('steps', [])` produced `steps`. -/
inductive PlanAiResult where
  | noResponse
  | parseError
  | parsed (steps : List StepData)
deriving DecidableEq, Repr

/-- `ActionPlanManager.create_plan_with_ai` as a function of the model
outcome: on success it delegates to `create_plan` and returns the created
steps; on a falsy reply or a raised exception it returns `[]`. -/
def create_plan_with_ai (r : PlanAiResult) : List PlanStep :=
  match r with
  | .noResponse => []
  | .parseError => []
  | .parsed steps_data => create_plan steps_data

/-- The hardcoded default plan of
`VaultAIAgentRunner._create_default_plan`. -/
def default_steps : List StepData :=
  [ { description := some "Analyze goal and requirements", command := none },
    { description := some "Execute necessary operations", command := none },
    { description := some "Verify results", command := none },
    { description := some "Summarize task", command := none } ]

/-- `VaultAIAgentRunner._initialize_plan`, reduced to the plan it leaves in
the plan manager: `create_plan_with_ai` first; when that yields a falsy
(empty) step list — or raised, which `create_plan_with_ai` already converts
to `[]`, and which `_initialize_plan`'s own `except` arm would equally send
to the default — `_create_default_plan` installs the 4-step generic plan. -/
def initialize_plan (r : PlanAiResult) : List PlanStep :=
  let steps := create_plan_with_ai r
  if steps.isEmpty then create_plan default_steps else steps

/-! ## The finish gate (VaultAiAgentRunner.run, `tool == "finish"` branch) -/

/-- What the `finish` branch of the dispatcher does with the action:
`refused feedback` models the incomplete-plan arm (the feedback turn is
appended via `add_user_message` and the `continue` keeps the loop running);
`accepted summary` models `task_finished_successfully = True` with
`self.summary = summary_text`. -/
inductive FinishOutcome where
  | refused (feedback : String)
  | accepted (summary : String)
deriving DecidableEq, Repr

/-- The corrective feedback turn the dispatcher appends when refusing a
finish, naming the number of incomplete steps. -/
def finishRefusalMessage (p : Progress) : String :=
  "You tried to finish the task, but the action plan is not complete. " ++
  "You still have " ++ toString (p.pending + p.in_progress) ++
  " step(s) pending or in progress. " ++
  "Please complete all plan steps before calling \x27finish\x27. " ++
  "If a step cannot be completed, mark it as failed with a reason. " ++
  "Current plan status: " ++ toString p.completed ++ "/" ++
  toString p.total ++ " completed."

/-- The `tool == "finish"` branch of `VaultAIAgentRunner.run`: check
`get_progress`; with any pending or in-progress steps, append the corrective
feedback and continue; otherwise record the summary and stop the turn as
finished. -/
def handle_finish (steps : List PlanStep) (summary_text : String) :
    FinishOutcome :=
  let progress := get_progress steps
  if progress.pending > 0 ∨ progress.in_progress > 0 then
    .refused (finishRefusalMessage progress)
  else
    .accepted summary_text

/-! ## The JSON-correction sub-protocol
(VaultAiAgentRunner._parse_ai_response_original)

The JSON extraction applied to a model reply (fenced-block regex, then a
brace/bracket regex, then `json.loads` on the whole reply) is abstracted as
the oracle `parseFn : String → Option String`, returning the extracted JSON
string on success (the code stores `data = json.loads(str)` and
`ai_reply_json_string = str`; the parsed value is identified with its
string).  The correction replies produced by `ai_handler.send_request` form
the oracle `corrections : Nat → Option String` (`none` = falsy reply).
Everything downstream of those calls is translated from the source. -/

/-- The five components of `_parse_ai_response_original`'s result tuple
`(success, data, ai_reply_json_string, corrected_successfully,
error_message)`, with `data` identified with the JSON string it was parsed
from. -/
structure ParseOutcome where
  success : Bool
  data : Option String
  json_string : Option String
  corrected_successfully : Bool
  error_message : String
deriving DecidableEq, Repr

/-- The correction request appended to context before each retry. -/
def correctionPrompt (ai_reply : String) : String :=
  "Your previous response was not valid JSON:\n```\n" ++ ai_reply ++
  "\n```\nPlease correct it and reply ONLY with the valid JSON object or " ++
  "list of objects. Do not include any explanations or introductory text."

/-- The correction `while` loop of `_parse_ai_response_original`
(`max_correction_attempts = 3`), unrolled on the number of remaining
attempts.  Each attempt appends the correction request, rebuilds the
sliding window (`self._sliding_window_context()` — a state-mutating call on
the context manager), and consults the correction oracle.  When a
correction parses, the source runs
`self.context_manager.remove_last_n_messages(2)` — but
`ContextManager` (src/context/ContextManager.py) defines no method of that
name, so the attribute lookup raises `AttributeError`, which no handler in
the function catches (the enclosing handlers accept only
`json.JSONDecodeError`). -/
def correction_loop (parseFn : String → Option String)
    (corrections : Nat → Option String) :
    Nat → Nat → CMState → String → String →
    Except PyError (ParseOutcome × CMState)
  | 0, _, cm, _, err =>
    .ok ({ success := false, data := none, json_string := none,
           corrected_successfully := false, error_message := err }, cm)
  | remaining + 1, attempt_idx, cm, ai_reply, err =>
    let cm := add_user_message cm (correctionPrompt ai_reply)
    let cm := (get_sliding_window_context cm none).2
    match corrections attempt_idx with
    | some corrected_reply =>
      match parseFn corrected_reply with
      | some _json_str =>
        .error (.attributeError
          "\x27ContextManager\x27 object has no attribute \x27remove_last_n_messages\x27")
      | none =>
        let err :=
          if remaining = 0 then
            "Failed to parse JSON after 3 correction attempts"
          else err
        correction_loop parseFn corrections remaining (attempt_idx + 1) cm
          corrected_reply err
    | none =>
      let err :=
        if remaining = 0 then
          "Failed to get corrected JSON after 3 attempts"
        else err
      correction_loop parseFn corrections remaining (attempt_idx + 1) cm
        ai_reply err

/-- `VaultAIAgentRunner._parse_ai_response_original`: parse directly; on a
`json.JSONDecodeError`, append the invalid reply to context as an assistant
turn and run the correction loop (up to 3 attempts). -/
def parse_ai_response_original (parseFn : String → Option String)
    (corrections : Nat → Option String) (cm : CMState) (ai_reply : String) :
    Except PyError (ParseOutcome × CMState) :=
  match parseFn ai_reply with
  | some json_str =>
    .ok ({ success := true, data := some json_str,
           json_string := some json_str, corrected_successfully := false,
           error_message := "" }, cm)
  | none =>
    let cm := add_assistant_message cm ai_reply
    correction_loop parseFn corrections 3 0 cm ai_reply ""

/-! ## The bounded step loop (VaultAiAgentRunner.run)

`for step_count in range(self.max_steps)` with
`MAX_STEPS_DEFAULT = 100`.  One loop iteration — model call, parse,
dispatch of the action batch — is abstracted as the oracle
`iteration : Nat → StepIterationResult` (the claim assumes each model call
and command execution returns); the loop skeleton, the step bound, and the
post-loop summary assignment are translated from the source. -/

/-- `MAX_STEPS_DEFAULT` (`VaultAIAgentRunner`). -/
def MAX_STEPS_DEFAULT : Nat := 100

/-- How one iteration of the step loop ends: the batch completed without a
stop signal (`advance` — the `for` proceeds), or the turn broke out with
`agent_should_stop_this_turn` set (`stop finished summary`). -/
inductive StepIterationResult where
  | advance
  | stop (task_finished : Bool) (summary : String)
deriving DecidableEq, Repr

/-- The result of one pass through the step loop: how many iterations ran,
whether the task finished successfully, and the final summary. -/
structure StepLoopResult where
  steps_executed : Nat
  task_finished : Bool
  summary : String
deriving DecidableEq, Repr

/-- The bounded `for step_count in range(max_steps)` loop of
`VaultAIAgentRunner.run`, by recursion on the remaining budget; when the
range is exhausted without a stop, `agent_should_stop_this_turn` is still
false and the code sets
`self.summary = "Agent stopped: Reached maximum step limit."`. -/
def run_step_loop (iteration : Nat → StepIterationResult) :
    Nat → Nat → StepLoopResult
  | 0, executed =>
    { steps_executed := executed, task_finished := false,
      summary := "Agent stopped: Reached maximum step limit." }
  | remaining + 1, executed =>
    match iteration executed with
    | .advance => run_step_loop iteration remaining (executed + 1)
    | .stop finished summary =>
      { steps_executed := executed + 1, task_finished := finished,
        summary := summary }

/-- One per-goal pass of `run`, starting the loop at step 0 with the
configured `max_steps` budget. -/
def run_goal_pass (iteration : Nat → StepIterationResult)
    (max_steps : Nat) : StepLoopResult :=
  run_step_loop iteration max_steps 0

/-! ## Helper lemmas -/

/-- `_update_rolling_summary` is a no-op on the state: both internal
summarizer calls raise `TypeError` (bad `prompt=` keyword), the `except`
arm catches it, and the previous state is left untouched. -/
theorem update_rolling_summary_eq (s : CMState) (m : List Message) :
    update_rolling_summary s m = s := by
  unfold update_rolling_summary
  cases s.rolling_summary <;> rfl

/-- The state after a `get_sliding_window_context` call differs from the
previous state at most in `_summary_upto_index`. -/
theorem window_state_eq (s : CMState) (st : Option String) :
    (get_sliding_window_context s st).2 = s ∨
    (get_sliding_window_context s st).2 =
      { s with summary_upto_index := s.context.length - s.window_size } := by
  unfold get_sliding_window_context
  by_cases hc : s.context.length ≤ 2 + s.window_size
  · simp [hc]
  · simp only [hc, if_false]
    by_cases hne :
        (pySlice s.summary_upto_index (s.context.length - s.window_size)
          s.context).isEmpty
    · simp [hne]
    · simp [hne, update_rolling_summary_eq]

/-- A window call leaves the stored turn list unchanged. -/
theorem window_state_context (s : CMState) (st : Option String) :
    ((get_sliding_window_context s st).2).context = s.context := by
  rcases window_state_eq s st with h | h <;> rw [h]

/-- A window call leaves `window_size` unchanged. -/
theorem window_state_window_size (s : CMState) (st : Option String) :
    ((get_sliding_window_context s st).2).window_size = s.window_size := by
  rcases window_state_eq s st with h | h <;> rw [h]

/-- A window call leaves `_rolling_summary` unchanged. -/
theorem window_state_rolling (s : CMState) (st : Option String) :
    ((get_sliding_window_context s st).2).rolling_summary =
      s.rolling_summary := by
  rcases window_state_eq s st with h | h <;> rw [h]

/-- Every reachable state keeps the starting `window_size`. -/
theorem reach_window_size {s₀ s : CMState} (h : CMReach s₀ s) :
    s.window_size = s₀.window_size := by
  induction h with
  | refl => rfl
  | add role content _ ih => simpa [add_message] using ih
  | window state _ ih => rw [window_state_window_size]; exact ih

/-- Starting without a rolling summary, no reachable state ever has one:
`add_message` clears it and the window call's update attempt always fails. -/
theorem reach_rolling_none {s₀ s : CMState} (h : CMReach s₀ s)
    (h₀ : s₀.rolling_summary = none) : s.rolling_summary = none := by
  induction h with
  | refl => exact h₀
  | add role content _ _ => simp [add_message]
  | window state _ ih => rw [window_state_rolling]; exact ih

/-- Appending and window calls preserve the first two stored turns and keep
the context at least 2 long. -/
theorem reach_take_two {s₀ s : CMState} (h : CMReach s₀ s)
    (h₀ : 2 ≤ s₀.context.length) :
    s.context.take 2 = s₀.context.take 2 ∧ 2 ≤ s.context.length := by
  induction h with
  | refl => exact ⟨rfl, h₀⟩
  | add role content _ ih =>
    refine ⟨?_, ?_⟩
    · rw [add_message]
      simpa using List.take_eq_left_iff.mpr (Or.inr ih.2) |>.trans ih.1
    · simp only [add_message, List.length_append, List.length_cons,
        List.length_nil]
      omega
  | window state _ ih =>
    rw [window_state_context]
    exact ih

/-- `inject_state` appends the (zero or one) synthetic state turns. -/
def stateTurns (st : Option String) : List Message :=
  match st with
  | none => []
  | some state_repr =>
    [⟨"system", "[Persistent agent state]\n" ++ state_repr⟩]

theorem inject_state_eq (working : List Message) (st : Option String) :
    inject_state working st = working ++ stateTurns st := by
  cases st <;> simp [inject_state, stateTurns]

/-- What the window call returns when no rolling summary exists and the
context has grown to the window bound or beyond: the first two turns, the
last `window_size` turns, and the injected state turns. -/
theorem window_output_of_none (s : CMState) (st : Option String)
    (hrs : s.rolling_summary = none) (hws : 0 < s.window_size)
    (hlen : 2 + s.window_size ≤ s.context.length) :
    (get_sliding_window_context s st).1 =
      s.context.take 2 ++ pyTakeLast s.window_size s.context
        ++ stateTurns st := by
  unfold get_sliding_window_context
  by_cases hc : s.context.length ≤ 2 + s.window_size
  · have hlen' : s.context.length = 2 + s.window_size :=
      Nat.le_antisymm hc hlen
    have hsub : s.context.length - s.window_size = 2 := by omega
    have htail : pyTakeLast s.window_size s.context = s.context.drop 2 := by
      unfold pyTakeLast
      rw [if_neg (Nat.pos_iff_ne_zero.mp hws), hsub]
    simp only [hc, if_true, inject_state_eq, htail, List.take_append_drop]
  · simp only [hc, if_false]
    have hrol : (if (pySlice s.summary_upto_index
          (s.context.length - s.window_size) s.context).isEmpty then s
        else { update_rolling_summary s
                (pySlice s.summary_upto_index
                  (s.context.length - s.window_size) s.context) with
                summary_upto_index :=
                  s.context.length - s.window_size }).rolling_summary
        = none := by
      by_cases hne : (pySlice s.summary_upto_index
          (s.context.length - s.window_size) s.context).isEmpty
      · simpa [hne] using hrs
      · simpa [hne, update_rolling_summary_eq] using hrs
    simp only [hrol, inject_state_eq, List.append_assoc]

/-- The first two turns of any window are the first two stored turns. -/
theorem window_take_two (s : CMState) (st : Option String)
    (h : 2 ≤ s.context.length) :
    (get_sliding_window_context s st).1.take 2 = s.context.take 2 := by
  unfold get_sliding_window_context
  by_cases hc : s.context.length ≤ 2 + s.window_size
  · simp only [hc, if_true, inject_state_eq]
    exact List.take_eq_left_iff.mpr (Or.inr h)
  · simp only [hc, if_false, inject_state_eq]
    have h2 : 2 ≤ (s.context.take 2).length := by
      simpa using h
    have htake : ∀ rest : List Message,
        ((s.context.take 2 ++ rest).take 2) = s.context.take 2 := by
      intro rest
      refine (List.take_eq_left_iff.mpr (Or.inr h2)).trans ?_
      simp
    rcases hrs : (if (pySlice s.summary_upto_index
        (s.context.length - s.window_size) s.context).isEmpty then s
      else { update_rolling_summary s
              (pySlice s.summary_upto_index
                (s.context.length - s.window_size) s.context) with
              summary_upto_index :=
                s.context.length - s.window_size }).rolling_summary
      with _ | rs
    · simpa [List.append_assoc] using htake _
    · by_cases hr : rs ≠ ""
      · simpa [hr, List.append_assoc] using htake _
      · simpa [hr, List.append_assoc] using htake _

/-! ## Claim theorems -/

/-- C3 (context window bound): in any conversation reached from a fresh
context by appends and window calls, once the stored turn count is at least
`2 + window_size`, the returned window is exactly the first two stored
turns plus the last `window_size` stored turns (hence exactly
`2 + window_size` verbatim turns), followed by at most 2 synthetic
system-role turns; its total length is at most `2 + window_size + 2`,
independent of the conversation length. -/
theorem context_window_bound (ws limit : Nat) (s : CMState)
    (st : Option String) (hws : 0 < ws)
    (hreach : CMReach (cm_init ws limit) s)
    (hlen : 2 + ws ≤ s.context.length) :
    (get_sliding_window_context s st).1 =
      s.context.take 2 ++ pyTakeLast ws s.context ++ stateTurns st
    ∧ (s.context.take 2 ++ pyTakeLast ws s.context).length = 2 + ws
    ∧ (stateTurns st).length ≤ 2
    ∧ (∀ m ∈ stateTurns st, m.role = "system")
    ∧ (get_sliding_window_context s st).1.length ≤ 2 + ws + 2 := by
  have hwsz : s.window_size = ws := by
    simpa [cm_init] using reach_window_size hreach
  have hrs : s.rolling_summary = none :=
    reach_rolling_none hreach (by simp [cm_init])
  have hout := window_output_of_none s st hrs (hwsz ▸ hws) (hwsz ▸ hlen)
  rw [hwsz] at hout
  have hlen2 : (s.context.take 2).length = 2 := by
    simp only [List.length_take]
    omega
  have hlentail : (pyTakeLast ws s.context).length = ws := by
    unfold pyTakeLast
    rw [if_neg (Nat.pos_iff_ne_zero.mp hws)]
    simp only [List.length_drop]
    omega
  have hverb : (s.context.take 2 ++ pyTakeLast ws s.context).length
      = 2 + ws := by
    simp [hlen2, hlentail]
  have hstlen : (stateTurns st).length ≤ 2 := by
    cases st <;> simp [stateTurns]
  refine ⟨hout, hverb, hstlen, ?_, ?_⟩
  · intro m hm
    cases st with
    | none => simp [stateTurns] at hm
    | some r =>
      simp only [stateTurns, List.mem_singleton] at hm
      rw [hm]
  · rw [hout]
    simp only [List.length_append, hlen2, hlentail]
    omega

/-- Witness for C3 at a concrete conversation: window size 1, three
appended turns, a persistent state injected. -/
theorem context_window_bound_witness :
    0 < 1
    ∧ CMReach (cm_init 1 5)
        (add_message (add_message (add_message (cm_init 1 5)
          "system" "sys") "user" "goal") "user" "u1")
    ∧ 2 + 1 ≤ (add_message (add_message (add_message (cm_init 1 5)
          "system" "sys") "user" "goal") "user" "u1").context.length
    ∧ (get_sliding_window_context
        (add_message (add_message (add_message (cm_init 1 5)
          "system" "sys") "user" "goal") "user" "u1") (some "S")).1 =
      (add_message (add_message (add_message (cm_init 1 5)
          "system" "sys") "user" "goal") "user" "u1").context.take 2
        ++ pyTakeLast 1 (add_message (add_message (add_message (cm_init 1 5)
          "system" "sys") "user" "goal") "user" "u1").context
        ++ stateTurns (some "S") :=
  ⟨by decide,
   CMReach.add "user" "u1" (CMReach.add "user" "goal"
     (CMReach.add "system" "sys" CMReach.refl)),
   by decide,
   (context_window_bound 1 5 _ (some "S") (by decide)
     (CMReach.add "user" "u1" (CMReach.add "user" "goal"
       (CMReach.add "system" "sys" CMReach.refl)))
     (by decide)).1⟩

/-- C4 (summary anchoring): once two turns have been appended to a fresh
context, every subsequent window — after any further appends and window
calls — starts with exactly those two turns, verbatim and in order. -/
theorem summary_anchoring (ws limit : Nat) (r₁ c₁ r₂ c₂ : String)
    (s : CMState) (st : Option String)
    (hreach : CMReach
      (add_message (add_message (cm_init ws limit) r₁ c₁) r₂ c₂) s) :
    (get_sliding_window_context s st).1.take 2 = [⟨r₁, c₁⟩, ⟨r₂, c₂⟩] := by
  have h₀ : (add_message (add_message (cm_init ws limit) r₁ c₁) r₂ c₂).context
      = [⟨r₁, c₁⟩, ⟨r₂, c₂⟩] := by
    simp [add_message, cm_init]
  have htake := reach_take_two hreach (by rw [h₀]; simp)
  rw [window_take_two s st htake.2, htake.1, h₀]
  rfl

/-- Witness for C4: a concrete five-turn conversation with an intervening
window call. -/
theorem summary_anchoring_witness :
    CMReach (add_message (add_message (cm_init 1 5) "system" "A") "user" "B")
      (add_message (get_sliding_window_context
        (add_message (add_message (add_message (add_message (cm_init 1 5)
          "system" "A") "user" "B") "assistant" "C") "user" "D") none).2
        "assistant" "E")
    ∧ (get_sliding_window_context
        (add_message (get_sliding_window_context
          (add_message (add_message (add_message (add_message (cm_init 1 5)
            "system" "A") "user" "B") "assistant" "C") "user" "D") none).2
          "assistant" "E") none).1.take 2 =
      [⟨"system", "A"⟩, ⟨"user", "B"⟩] :=
  ⟨CMReach.add "assistant" "E" (CMReach.window none
     (CMReach.add "user" "D" (CMReach.add "assistant" "C" CMReach.refl))),
   summary_anchoring 1 5 "system" "A" "user" "B" _ none
     (CMReach.add "assistant" "E" (CMReach.window none
       (CMReach.add "user" "D" (CMReach.add "assistant" "C" CMReach.refl))))⟩

/-- C5 (rolling summary lifecycle): contrary to the claimed lifecycle, the
rolling summary is never created at all — in every state reachable from a
fresh context, before and after any window request, `_rolling_summary` is
still `None` (the internal `self._summarize(messages, prompt=...)` call
raises `TypeError`, and `add_message` moreover resets the summary bookkeeping
on every append). -/
theorem rolling_summary_never_created (ws limit : Nat) (s : CMState)
    (st : Option String) (hreach : CMReach (cm_init ws limit) s) :
    s.rolling_summary = none
    ∧ ((get_sliding_window_context s st).2).rolling_summary = none := by
  have h := reach_rolling_none hreach (by simp [cm_init])
  exact ⟨h, by rw [window_state_rolling]; exact h⟩

/-- Witness for C5: a conversation that has grown past the window threshold
(window size 1, five turns), where the claimed lifecycle would demand a
summary to exist after a window request. -/
theorem rolling_summary_never_created_witness :
    CMReach (cm_init 1 5)
      (add_message (add_message (add_message (add_message (add_message
        (cm_init 1 5) "system" "A") "user" "B") "assistant" "C")
        "user" "D") "assistant" "E")
    ∧ (add_message (add_message (add_message (add_message (add_message
        (cm_init 1 5) "system" "A") "user" "B") "assistant" "C")
        "user" "D") "assistant" "E").rolling_summary = none
    ∧ ((get_sliding_window_context
        (add_message (add_message (add_message (add_message (add_message
          (cm_init 1 5) "system" "A") "user" "B") "assistant" "C")
          "user" "D") "assistant" "E") none).2).rolling_summary = none :=
  ⟨CMReach.add "assistant" "E" (CMReach.add "user" "D"
     (CMReach.add "assistant" "C" (CMReach.add "user" "B"
       (CMReach.add "system" "A" CMReach.refl)))),
   (rolling_summary_never_created 1 5 _ none
     (CMReach.add "assistant" "E" (CMReach.add "user" "D"
       (CMReach.add "assistant" "C" (CMReach.add "user" "B"
         (CMReach.add "system" "A" CMReach.refl)))))).1,
   (rolling_summary_never_created 1 5 _ none
     (CMReach.add "assistant" "E" (CMReach.add "user" "D"
       (CMReach.add "assistant" "C" (CMReach.add "user" "B"
         (CMReach.add "system" "A" CMReach.refl)))))).2⟩

/-- C6 (summarization never raises, caps length): `_update_rolling_summary`
indeed never raises to its caller — but only because its internal
summarizer call always raises `TypeError` (bad `prompt=` keyword) which the
`except` arm swallows; consequently the state is returned entirely
unchanged: no summary is stored, the hard length cap is never applied, and
the truncation counter is never incremented, for every input. -/
theorem update_rolling_summary_state_unchanged (s : CMState)
    (new_messages : List Message) :
    (update_rolling_summary s new_messages).rolling_summary =
      s.rolling_summary
    ∧ (update_rolling_summary s new_messages).truncation_count =
      s.truncation_count
    ∧ update_rolling_summary s new_messages = s := by
  have h := update_rolling_summary_eq s new_messages
  exact ⟨by rw [h], by rw [h], h⟩

/-- With a non-empty plan, `get_progress` counts `pending` steps. -/
theorem get_progress_pending (steps : List PlanStep) (h : steps ≠ []) :
    (get_progress steps).pending =
      steps.countP (fun s => s.status = StepStatus.pending) := by
  have hlen : ¬ steps.length = 0 := by
    simpa [List.length_eq_zero] using h
  simp [get_progress, hlen]

/-- With a non-empty plan, `get_progress` counts `in_progress` steps. -/
theorem get_progress_in_progress (steps : List PlanStep) (h : steps ≠ []) :
    (get_progress steps).in_progress =
      steps.countP (fun s => s.status = StepStatus.in_progress) := by
  have hlen : ¬ steps.length = 0 := by
    simpa [List.length_eq_zero] using h
  simp [get_progress, hlen]

/-- The `finish` branch reduces to a two-way `if` on the progress counts. -/
theorem handle_finish_eq (steps : List PlanStep) (summary_text : String) :
    handle_finish steps summary_text =
      if (get_progress steps).pending > 0 ∨ (get_progress steps).in_progress > 0
      then FinishOutcome.refused (finishRefusalMessage (get_progress steps))
      else FinishOutcome.accepted summary_text := rfl

/-- C1 (finish gate): when a `finish` action arrives while some plan step is
still `pending` or `in_progress`, the dispatcher refuses it — the run is not
marked finished; the corrective feedback turn naming the number of
incomplete steps is appended and the loop continues.  When no step is
`pending` or `in_progress`, the finish is accepted and the summary
recorded. -/
theorem finish_gate (steps : List PlanStep) (summary_text : String) :
    ((∃ step ∈ steps,
        step.status = StepStatus.pending ∨
        step.status = StepStatus.in_progress) →
      handle_finish steps summary_text =
        .refused (finishRefusalMessage (get_progress steps)))
    ∧ ((∀ step ∈ steps,
        step.status ≠ StepStatus.pending ∧
        step.status ≠ StepStatus.in_progress) →
      handle_finish steps summary_text = .accepted summary_text) := by
  constructor
  · rintro ⟨step, hmem, hstat⟩
    have hne : steps ≠ [] := by
      rintro rfl
      exact absurd hmem (List.not_mem_nil step)
    have hpos : (get_progress steps).pending > 0 ∨
        (get_progress steps).in_progress > 0 := by
      rcases hstat with hp | hq
      · left
        rw [get_progress_pending steps hne]
        exact List.countP_pos_iff.mpr ⟨step, hmem, by simp [hp]⟩
      · right
        rw [get_progress_in_progress steps hne]
        exact List.countP_pos_iff.mpr ⟨step, hmem, by simp [hq]⟩
    rw [handle_finish_eq, if_pos hpos]
  · intro hall
    by_cases hne : steps = []
    · subst hne
      rw [handle_finish_eq]
      norm_num [get_progress]
    · have hzero : ¬((get_progress steps).pending > 0 ∨
          (get_progress steps).in_progress > 0) := by
        rw [get_progress_pending steps hne, get_progress_in_progress steps hne]
        push_neg
        constructor
        · rw [Nat.le_zero, List.countP_eq_zero]
          intro a ha
          simp [(hall a ha).1]
        · rw [Nat.le_zero, List.countP_eq_zero]
          intro a ha
          simp [(hall a ha).2]
      rw [handle_finish_eq, if_neg hzero]

/-- Witness for C1: a one-step pending plan is refused with the feedback
turn; a completed-plus-skipped plan is accepted. -/
theorem finish_gate_witness :
    handle_finish [⟨1, "a", none, .pending, none, none, none, none⟩] "done" =
      .refused (finishRefusalMessage
        (get_progress [⟨1, "a", none, .pending, none, none, none, none⟩]))
    ∧ handle_finish [⟨1, "a", none, .completed, none, none, none, none⟩,
        ⟨2, "b", none, .skipped, none, none, none, none⟩] "done" =
      .accepted "done" :=
  ⟨(finish_gate _ "done").1 ⟨_, List.mem_singleton_self _, Or.inl rfl⟩,
   (finish_gate _ "done").2 (by decide)⟩

/-- C2 counterexample: the command `"usermod -p "` (trailing space) contains
the denylist pattern `'usermod -p '` verbatim — so also case-insensitively —
yet `validate_command` accepts it, because the code strips the command
before the substring scan. -/
theorem validator_denylist_counterexample :
    "usermod -p " ∈ defaultDangerousCommands
    ∧ pyContains (pyLower "usermod -p ") "usermod -p " = true
    ∧ (validate_command "usermod -p ").1 = true :=
  ⟨by decide, by rfl, by rfl⟩

/-- C2, amended (validator denylist rejection): for every command whose
lowercased **and whitespace-stripped** form contains a denylist pattern,
`validate_command` returns `ok = false`; and the representative safe command
`"ls -la /tmp"` is accepted with `ok = true`. -/
theorem validator_denylist_rejects (command : String)
    (h : ∃ p ∈ defaultDangerousCommands,
      pyContains (pyStrip (pyLower command)) p = true) :
    (validate_command command).1 = false
    ∧ validate_command "ls -la /tmp" = (true, "") := by
  refine ⟨?_, by rfl⟩
  unfold validate_command validate_command_with
  by_cases hc : command = ""
  · simp [hc]
  · rw [if_neg hc]
    dsimp only
    have hsome : (defaultDangerousCommands.find?
        (fun d => pyContains (pyStrip (pyLower command)) d)).isSome := by
      rw [List.find?_isSome]
      obtain ⟨p, hp, hcont⟩ := h
      exact ⟨p, hp, hcont⟩
    obtain ⟨q, hq⟩ := Option.isSome_iff_exists.mp hsome
    rw [hq]

/-- Witness for C2: `"rm -rf / tmp"` contains the pattern `'rm -rf /'` and
is rejected. -/
theorem validator_denylist_rejects_witness :
    (∃ p ∈ defaultDangerousCommands,
      pyContains (pyStrip (pyLower "rm -rf / tmp")) p = true)
    ∧ (validate_command "rm -rf / tmp").1 = false
    ∧ validate_command "ls -la /tmp" = (true, "") :=
  ⟨⟨"rm -rf /", by decide, by rfl⟩,
   (validator_denylist_rejects "rm -rf / tmp"
     ⟨"rm -rf /", by decide, by rfl⟩).1,
   (validator_denylist_rejects "rm -rf / tmp"
     ⟨"rm -rf /", by decide, by rfl⟩).2⟩

/-- `create_plan` yields one step per input entry. -/
theorem create_plan_length (sd : List StepData) :
    (create_plan sd).length = sd.length := by
  simp [create_plan]

/-- C7 (AI-plan fallback): plan initialization never leaves the agent with
an empty plan — a successfully parsed non-empty step list becomes the plan
verbatim (via `create_plan`), and every failure (no response, unparseable
JSON, or an empty step list) falls back to the hardcoded 4-step generic
plan (analyze → execute → verify → summarize). -/
theorem plan_fallback (r : PlanAiResult) :
    initialize_plan r ≠ []
    ∧ (∀ sd, r = .parsed sd → sd ≠ [] → initialize_plan r = create_plan sd)
    ∧ ((r = .noResponse ∨ r = .parseError ∨ r = .parsed []) →
        initialize_plan r = create_plan default_steps)
    ∧ (create_plan default_steps).map PlanStep.description =
        ["Analyze goal and requirements", "Execute necessary operations",
         "Verify results", "Summarize task"] := by
  have hdef : create_plan default_steps ≠ [] := by decide
  have hmap : (create_plan default_steps).map PlanStep.description =
      ["Analyze goal and requirements", "Execute necessary operations",
       "Verify results", "Summarize task"] := by decide
  cases r with
  | noResponse =>
    refine ⟨?_, ?_, ?_, hmap⟩
    · simpa [initialize_plan, create_plan_with_ai] using hdef
    · intro sd h
      cases h
    · intro _
      simp [initialize_plan, create_plan_with_ai]
  | parseError =>
    refine ⟨?_, ?_, ?_, hmap⟩
    · simpa [initialize_plan, create_plan_with_ai] using hdef
    · intro sd h
      cases h
    · intro _
      simp [initialize_plan, create_plan_with_ai]
  | parsed sd =>
    by_cases hsd : sd = []
    · subst hsd
      refine ⟨?_, ?_, ?_, hmap⟩
      · simpa [initialize_plan, create_plan_with_ai, create_plan] using hdef
      · rintro sd' h hne
        cases h
        exact absurd rfl hne
      · intro _
        simp [initialize_plan, create_plan_with_ai, create_plan]
    · have hne : create_plan sd ≠ [] := by
        intro h
        apply hsd
        have hl := create_plan_length sd
        rw [h] at hl
        exact List.length_eq_zero.mp hl.symm
      have hinit : initialize_plan (.parsed sd) = create_plan sd := by
        simp [initialize_plan, create_plan_with_ai,
          List.isEmpty_iff, hne]
      refine ⟨?_, ?_, ?_, hmap⟩
      · rw [hinit]
        exact hne
      · rintro sd' h _
        cases h
        exact hinit
      · rintro (h | h | h) <;> cases h
        exact absurd rfl hsd

/-- Witness for C7: a parsed single-step reply is installed verbatim; a
missing reply falls back to the default 4-step plan. -/
theorem plan_fallback_witness :
    ((PlanAiResult.parsed [⟨some "x", some "c"⟩]) =
      PlanAiResult.parsed [⟨some "x", some "c"⟩])
    ∧ ([(⟨some "x", some "c"⟩ : StepData)] ≠ [])
    ∧ initialize_plan (.parsed [⟨some "x", some "c"⟩]) =
        create_plan [⟨some "x", some "c"⟩]
    ∧ initialize_plan .noResponse = create_plan default_steps :=
  ⟨rfl, by decide,
   (plan_fallback (.parsed [⟨some "x", some "c"⟩])).2.1 _ rfl (by decide),
   (plan_fallback .noResponse).2.2.1 (Or.inl rfl)⟩

/-- C8 (JSON-correction sub-protocol): evaluated at the spec's own scenario
— a first reply that is not JSON, followed by a correction reply that is
valid JSON — the sub-protocol does not remove the correction turns and
proceed; it raises `AttributeError`, because the success path calls
`self.context_manager.remove_last_n_messages(2)` and `ContextManager`
defines no such method.  The error escapes `_parse_ai_response_original`
(whose handlers catch only `json.JSONDecodeError`), so the dispatcher's
parse step raises to its caller instead of never raising. -/
theorem json_correction_raises :
    parse_ai_response_original
      (fun r =>
        if r = "\x7b\"tool\": \"bash\", \"command\": \"ls -la\"\x7d"
        then some r else none)
      (fun _ => some "\x7b\"tool\": \"bash\", \"command\": \"ls -la\"\x7d")
      (add_user_message (add_system_message (cm_init 20 5000) "sys")
        "Your goal: list files.")
      "I think ls -la is good"
    = .error (.attributeError
        "\x27ContextManager\x27 object has no attribute \x27remove_last_n_messages\x27")
    := by rfl

/-- The step loop never runs more iterations than its remaining budget. -/
theorem run_step_loop_le (iteration : Nat → StepIterationResult)
    (fuel executed : Nat) :
    (run_step_loop iteration fuel executed).steps_executed
      ≤ executed + fuel := by
  induction fuel generalizing executed with
  | zero => simp [run_step_loop]
  | succ n ih =>
    unfold run_step_loop
    cases iteration executed with
    | advance =>
      dsimp only
      have := ih (executed + 1)
      omega
    | stop finished summary =>
      dsimp only
      omega

/-- When no iteration ever signals a stop, the loop exhausts its budget and
reports the maximum-step summary. -/
theorem run_step_loop_all_advance (iteration : Nat → StepIterationResult)
    (h : ∀ n, iteration n = .advance) (fuel executed : Nat) :
    run_step_loop iteration fuel executed =
      { steps_executed := executed + fuel, task_finished := false,
        summary := "Agent stopped: Reached maximum step limit." } := by
  induction fuel generalizing executed with
  | zero => simp [run_step_loop]
  | succ n ih =>
    unfold run_step_loop
    rw [h executed, ih (executed + 1)]
    have : executed + 1 + n = executed + (n + 1) := by omega
    rw [this]

/-- C9 (bounded step loop): whatever the model replies (abstracted by the
`iteration` oracle, assumed to return), one per-goal pass of the dispatcher
executes at most `max_steps` iterations; if no iteration stops the turn the
loop ends after exactly `max_steps` iterations with the
`maximum step limit` summary, and the default budget is 100. -/
theorem step_loop_bounded (iteration : Nat → StepIterationResult)
    (max_steps : Nat) :
    (run_goal_pass iteration max_steps).steps_executed ≤ max_steps
    ∧ ((∀ n, iteration n = .advance) →
        run_goal_pass iteration max_steps =
          { steps_executed := max_steps, task_finished := false,
            summary := "Agent stopped: Reached maximum step limit." })
    ∧ MAX_STEPS_DEFAULT = 100 := by
  refine ⟨?_, ?_, rfl⟩
  · have := run_step_loop_le iteration max_steps 0
    simpa [run_goal_pass] using this
  · intro h
    have := run_step_loop_all_advance iteration h max_steps 0
    simpa [run_goal_pass] using this

/-- Witness for C9: with an oracle that never stops, a budget of 3 runs
exactly 3 iterations and stops on the step limit. -/
theorem step_loop_bounded_witness :
    (run_goal_pass (fun _ => .advance) 3).steps_executed ≤ 3
    ∧ run_goal_pass (fun _ => .advance) 3 =
        { steps_executed := 3, task_finished := false,
          summary := "Agent stopped: Reached maximum step limit." } :=
  ⟨(step_loop_bounded (fun _ => .advance) 3).1,
   (step_loop_bounded (fun _ => .advance) 3).2.1 (fun _ => rfl)⟩

/-- C10 (validator determinism and purity): a `validate_command` call
returns the validator state unchanged (mutating neither the denylist, the
allowed paths, nor anything else), and its `(ok, reason)` result is a
function of exactly the command string and the configured denylist — two
calls agreeing on those agree on the result, whatever the rest of the
state. -/
theorem validator_pure (v v' : SecurityValidatorState)
    (command command' : String)
    (hd : v'.dangerous_commands = v.dangerous_commands)
    (hc : command' = command) :
    (SecurityValidator.validate_command v command).2 = v
    ∧ (SecurityValidator.validate_command v' command').1 =
        (SecurityValidator.validate_command v command).1 := by
  refine ⟨rfl, ?_⟩
  unfold SecurityValidator.validate_command
  rw [hd, hc]

/-- Witness for C10: the default validator and a validator with the same
denylist but different allowed paths agree on `"ls -la /tmp"`, and the call
leaves the default validator unchanged. -/
theorem validator_pure_witness :
    (SecurityValidator.validate_command securityValidatorDefault
      "ls -la /tmp").2 = securityValidatorDefault
    ∧ (SecurityValidator.validate_command
        ⟨defaultDangerousCommands, []⟩ "ls -la /tmp").1 =
      (SecurityValidator.validate_command securityValidatorDefault
        "ls -la /tmp").1 :=
  ⟨(validator_pure securityValidatorDefault
      ⟨defaultDangerousCommands, []⟩ "ls -la /tmp" "ls -la /tmp" rfl rfl).1,
   (validator_pure securityValidatorDefault
      ⟨defaultDangerousCommands, []⟩ "ls -la /tmp" "ls -la /tmp" rfl rfl).2⟩

end TermAgent
